import Mathlib

/-!
Verification development for the squirrel SQL-schema parser
(lexer, token stream, schema model, recursive-descent parser).

The Go source is shallowly embedded: pure functions become Lean functions,
the mutable token cursor becomes explicit state passing, fallible code
returns error values, and every parser loop takes an explicit fuel
argument (the Go loops can diverge on adversarial token streams; running
out of fuel is reported on a separate channel, `Except Unit`, whose
`.error ()` value means "the Go code would not return normally here" and
is never conflated with a Go `error` value, which is carried as a
`String`).  Go `int` cursor arithmetic is modelled with `Nat`, with every
guard translated from the exact Go comparison (e.g. `t.i - n < 0` over
Go ints becomes `t.i < n`).
-/

deriving instance DecidableEq for Except

namespace Squirrel

/-- Datatype is the closed enumeration of column datatypes
(`parser/data_type.go`).  The Go type is a string type whose zero value
`""` is distinct from every named constant; `UNKNOWN` plays the role of
the unset state in this embedding. -/
inductive Datatype where
  | UNKNOWN
  | INT
  | BOOL
  | FLOAT
  | TEXT
  | BLOB
  | DATETIME
deriving DecidableEq, Repr

/-- String value of each Datatype constant, as in `parser/data_type.go`
(used by Go error formatting `%s`). -/
def Datatype.str : Datatype → String
  | .UNKNOWN => "Unknown"
  | .INT => "int"
  | .BOOL => "bool"
  | .FLOAT => "float"
  | .TEXT => "text"
  | .BLOB => "blob"
  | .DATETIME => "datetime"

/-- OnFkAction represents all possible actions to take on a foreign key
DELETE or UPDATE (`parser/fk.go`). -/
inductive OnFkAction where
  | NoAction
  | SetNull
  | SetDefault
  | Cascade
  | Restrict
deriving DecidableEq, Repr

/-- ForeignKey as in the parser package: referenced table, referenced
column, and the two actions. -/
structure ForeignKey where
  Table : String
  Column : String
  OnUpdate : OnFkAction
  OnDelete : OnFkAction
deriving DecidableEq, Repr

/-- Column of a table (`parser/column.go`).  `sql.NullString`,
`sql.NullInt64` and `sql.NullBool` (invalid in the zero state) are
embedded as `Option`; the pointer `*ForeignKey` likewise.  The derived
`goName` field is computed by external casing and pluralization
libraries, is read by no parser code and no claim, and is omitted from
the embedding. -/
structure Column where
  sqlName : String
  Datatype : Datatype
  PrimaryKey : Bool
  CompositePrimaryKey : Bool
  autoIncrement : Bool
  Nullable : Bool
  Unique : Bool
  Comment : String
  ForeignKey : Option ForeignKey
  DefaultString : Option String
  DefaultInt : Option Int
  DefaultBool : Option Bool
deriving DecidableEq, Repr

/-- Column.AutoIncrement (`parser/column.go`): true iff the column is
the sole primary key and its type is INT, regardless of the explicit
`autoIncrement` flag. -/
def Column.AutoIncrement (c : Column) : Bool :=
  c.PrimaryKey && c.Datatype = Datatype.INT

/-- Table (`parser/table.go`).  The derived `goName` is omitted (see
`Column`). -/
structure Table where
  Strict : Bool
  SchemaName : String
  sqlName : String
  Temp : Bool
  IfNotExists : Bool
  Columns : List Column
  Comment : String
deriving DecidableEq, Repr

/-- Tokens (`parser/tokens.go`): the token sequence and the cursor.  The
Go struct caches `length = len(tokens)`; since `tokens` is never
reassigned that field always equals `tokens.length` and is folded into
the list. -/
structure Tokens where
  tokens : List String
  i : Nat
deriving DecidableEq, Repr

/-- NewTokens (`parser/tokens.go`). -/
def NewTokens (ts : List String) : Tokens := { tokens := ts, i := 0 }

/-- Next token or the empty string if there are no more tokens; does not
consume. -/
def Tokens.Next (t : Tokens) : String :=
  if t.i < t.tokens.length then t.tokens.getD t.i "" else ""

/-- NextN: the next n tokens joined with spaces; truncated if fewer
remain (the Go loop collects `tokens[i+j]` for `j < n` while in
bounds). -/
def Tokens.NextN (t : Tokens) (n : Nat) : String :=
  String.intercalate " " ((t.tokens.drop t.i).take n)

/-- Peek at the nth token from the current index, or the empty string if
it does not exist. -/
def Tokens.Peek (t : Tokens) (n : Nat) : String :=
  if t.i + n < t.tokens.length then t.tokens.getD (t.i + n) "" else ""

/-- Take the next token (consume it); does nothing at the end. -/
def Tokens.Take (t : Tokens) : String × Tokens :=
  if t.i < t.tokens.length then (t.tokens.getD t.i "", { t with i := t.i + 1 })
  else ("", t)

/-- TakeN: the Go guard is `t.i + n < t.length` (strict), so the cursor
advances only when strictly more than n tokens remain. -/
def Tokens.TakeN (t : Tokens) (n : Nat) : Tokens :=
  if t.i + n < t.tokens.length then { t with i := t.i + n } else t

/-- Return the last token (opposite of Take); no-op at zero (the Go code
prints a diagnostic and returns). -/
def Tokens.Return (t : Tokens) : Tokens :=
  if t.i = 0 then t else { t with i := t.i - 1 }

/-- ReturnN: the Go guard `t.i - n < 0` over ints is `t.i < n`. -/
def Tokens.ReturnN (t : Tokens) (n : Nat) : Tokens :=
  if t.i < n then t else { t with i := t.i - n }

/-!
The lexer (`Lex`, `lexer.go`): split the input on newlines; within a
line, space and tab flush the in-progress token, each of `( ) , ;`
flushes and is emitted as its own single-character token, every other
character extends the in-progress token; the line's final token is
flushed and an explicit newline token ends every line.
-/

/-- splitLines mirrors Go `strings.Split(s, "\n")`: n separators give
n+1 pieces. -/
def splitLines : List Char → List (List Char)
  | [] => [[]]
  | c :: rest =>
    if c = '\n' then [] :: splitLines rest
    else
      match splitLines rest with
      | [] => [[c]]
      | l :: ls => (c :: l) :: ls

/-- lexLine processes the characters of one line, carrying the emitted
tokens and the in-progress token, exactly as the inner loop of `Lex`. -/
def lexLine : List Char → List String → String → List String
  | [], tokens, token => if token = "" then tokens else tokens ++ [token]
  | ch :: rest, tokens, token =>
    if ch = ' ' ∨ ch = '\t' then
      lexLine rest (if token = "" then tokens else tokens ++ [token]) ""
    else if ch = ',' ∨ ch = '(' ∨ ch = ')' ∨ ch = ';' then
      lexLine rest ((if token = "" then tokens else tokens ++ [token]) ++ [String.mk [ch]]) ""
    else
      lexLine rest tokens (token.push ch)

/-- Lex turns a string containing SQL into tokens, leaving explicit
newline tokens (`lexer.go`). -/
def Lex (s : String) : Tokens :=
  NewTokens ((splitLines s.data).foldl (fun acc line => lexLine line acc "" ++ ["\n"]) [])

/-!
Parser helpers (`parser/parser.go`).
-/

/-- removeQuotes strips matching surrounding single or double quotes
(`parser/parser.go`).  Go indexes bytes; for the ASCII quote characters
involved this coincides with characters. -/
def removeQuotes (s : String) : String :=
  let l := s.data.length
  if l < 2 then s
  else if (s.data.getD 0 (Char.ofNat 0) = Char.ofNat 34 ∧ s.data.getD (l - 1) (Char.ofNat 0) = Char.ofNat 34)
       ∨ (s.data.getD 0 (Char.ofNat 0) = Char.ofNat 39 ∧ s.data.getD (l - 1) (Char.ofNat 0) = Char.ofNat 39) then
    String.mk ((s.data.drop 1).take (l - 2))
  else s

/-- decDigits? folds base-10 digits to a number, failing on any
non-digit character. -/
def decDigits? (cs : List Char) : Option Nat :=
  cs.foldl
    (fun acc c =>
      match acc with
      | none => none
      | some n => if c.isDigit then some (n * 10 + (c.toNat - 48)) else none)
    (some 0)

/-- parseInt64 embeds Go `strconv.ParseInt(s, 10, 64)`: an optional
sign, one or more base-10 digits, and the value must fit in int64. -/
def parseInt64 (s : String) : Option Int :=
  match s.data with
  | [] => none
  | c :: rest =>
    let signDigits : Bool × List Char :=
      if c = '-' then (true, rest)
      else if c = '+' then (false, rest)
      else (false, c :: rest)
    match signDigits.2 with
    | [] => none
    | _ =>
      match decDigits? signDigits.2 with
      | none => none
      | some n =>
        let v : Int := if signDigits.1 then -(n : Int) else (n : Int)
        if -(2 ^ 63) ≤ v ∧ v ≤ 2 ^ 63 - 1 then some v else none

/-- fmtStrList renders a Go `[]string` as `fmt` verb `%v` does:
space-separated inside square brackets. -/
def fmtStrList (l : List String) : String :=
  "[" ++ String.intercalate " " l ++ "]"

/-- removeNewlines skips newline tokens (`parser/parser.go`). -/
def removeNewlines : Nat → Tokens → Except Unit Tokens
  | 0, _ => .error ()
  | fuel + 1, tk => if tk.Next = "\n" then removeNewlines fuel (tk.Take).2 else .ok tk

/-- Body loop of parseComment: gather tokens until the newline token;
the Go loop never tests for end of input, so it diverges if no newline
remains (fuel). -/
def parseCommentLoop : Nat → Tokens → List String → Except Unit (List String × Tokens)
  | 0, _, _ => .error ()
  | fuel + 1, tk, comment =>
    let t := tk.Next
    if t = "\n" then .ok (comment, tk)
    else parseCommentLoop fuel (tk.Take).2 (comment ++ [t])

/-- parseComment: if the cursor is at a comment-delimiter token, consume
it and the rest of the line, returning the space-joined comment text
(`parser/parser.go`). -/
def parseComment (fuel : Nat) (tk : Tokens) : Except Unit (String × Tokens) :=
  if tk.Next = "--" then
    match parseCommentLoop fuel (tk.Take).2 [] with
    | .error () => .error ()
    | .ok (comment, tk) => .ok (String.intercalate " " comment, tk)
  else .ok ("", tk)

/-- Loop of parseCheckConstraint: balanced-parenthesis skipping; the
counter is a Go int (may go negative). -/
def parseCheckConstraintLoop : Nat → Tokens → Int → Except Unit Tokens
  | 0, _, _ => .error ()
  | fuel + 1, tk, paren =>
    let t := tk.Next
    if t = "(" then parseCheckConstraintLoop fuel (tk.Take).2 (paren + 1)
    else if t = ")" then
      if paren - 1 < 1 then .ok (tk.Take).2
      else parseCheckConstraintLoop fuel (tk.Take).2 (paren - 1)
    else parseCheckConstraintLoop fuel (tk.Take).2 paren

/-- parseCheckConstraint: CHECK ( expr ), parsed and discarded
(`parser/parser.go`).  The leading token is consumed unconditionally. -/
def parseCheckConstraint (fuel : Nat) (tk : Tokens) : Except Unit Tokens :=
  parseCheckConstraintLoop fuel (tk.Take).2 0

/-- Loop of parseDatetimeDefault: balanced-parenthesis skipping where
the current token is held in hand (`parser/parser.go`). -/
def parseDatetimeDefaultLoop : Nat → Tokens → String → Int → Except Unit Tokens
  | 0, _, _, _ => .error ()
  | fuel + 1, tk, t, paren =>
    if t = "(" then
      let (t2, tk2) := tk.Take
      parseDatetimeDefaultLoop fuel tk2 t2 (paren + 1)
    else if t = ")" then
      if paren - 1 = 0 then .ok tk
      else
        let (t2, tk2) := tk.Take
        parseDatetimeDefaultLoop fuel tk2 t2 (paren - 1)
    else
      let (t2, tk2) := tk.Take
      parseDatetimeDefaultLoop fuel tk2 t2 paren

/-- parseDatetimeDefault: a NULL token means no default; otherwise a
balanced-parenthesis expression is consumed and discarded. -/
def parseDatetimeDefault (fuel : Nat) (tk : Tokens) : Except Unit Tokens :=
  let (t, tk) := tk.Take
  if t = "NULL" then .ok tk
  else parseDatetimeDefaultLoop fuel tk t 0

/-- parseFkAction: fixed-length token matches for the supported ON
UPDATE / ON DELETE actions; anything else is a Go error with the token
stream untouched (`parser/parser.go`). -/
def parseFkAction (tk : Tokens) (fk : ForeignKey) : Except String (ForeignKey × Tokens) :=
  if tk.NextN 3 = "ON DELETE CASCADE" then .ok ({ fk with OnDelete := .Cascade }, tk.TakeN 3)
  else if tk.NextN 3 = "ON UPDATE CASCADE" then .ok ({ fk with OnUpdate := .Cascade }, tk.TakeN 3)
  else if tk.NextN 4 = "ON DELETE SET NULL" then .ok ({ fk with OnDelete := .SetNull }, tk.TakeN 4)
  else if tk.NextN 4 = "ON UPDATE SET NULL" then .ok ({ fk with OnUpdate := .SetNull }, tk.TakeN 4)
  else if tk.NextN 4 = "ON DELETE SET DEFAULT" then .ok ({ fk with OnDelete := .SetDefault }, tk.TakeN 4)
  else if tk.NextN 4 = "ON UPDATE SET DEFAULT" then .ok ({ fk with OnUpdate := .SetDefault }, tk.TakeN 4)
  else .error ("column foreign key constraint \"" ++ tk.NextN 4 ++ "\" not supported")

/-- Action loop shared by both foreign-key forms: while the next token
is ON, apply parseFkAction; its error aborts with the stream as it
stands. -/
def fkActionLoop : Nat → Tokens → ForeignKey → Except Unit (Tokens × Except String ForeignKey)
  | 0, _, _ => .error ()
  | fuel + 1, tk, fk =>
    if tk.Next ≠ "ON" then .ok (tk, .ok fk)
    else
      match parseFkAction tk fk with
      | .error e => .ok (tk, .error e)
      | .ok (fk, tk) => fkActionLoop fuel tk fk

/-- parseForeignKey (inline `REFERENCES` form, `parser/parser.go`):
requires a following token, takes the table name, optionally a
single-token parenthesized column (defaulting to the referencing
column's own SQL name), then the action clauses. -/
def parseForeignKey (fuel : Nat) (tk : Tokens) (c : Column) : Except Unit (Tokens × Except String Column) :=
  if tk.Peek 1 = "" then
    .ok (tk, .error ("column foreign key constraint \x27REFERENCES\x27 must be followed by a table name, not " ++ tk.NextN 2))
  else
    let tk1 := (tk.Take).2
    let tbl := (tk1.Take).1
    let tk2 := (tk1.Take).2
    let fk : ForeignKey := { Table := tbl, Column := "", OnUpdate := .NoAction, OnDelete := .NoAction }
    let colGroup : ForeignKey × Tokens :=
      if tk2.Next = "(" ∧ tk2.Peek 2 = ")" then ({ fk with Column := tk2.Peek 1 }, tk2.TakeN 3)
      else ({ fk with Column := c.sqlName }, tk2)
    match fkActionLoop fuel colGroup.2 colGroup.1 with
    | .error () => .error ()
    | .ok (tk, .error e) => .ok (tk, .error e)
    | .ok (tk, .ok fk) => .ok (tk, .ok { c with ForeignKey := some fk })

/-- Loop of parseColumnList: collect names until the closing
parenthesis, skipping commas. -/
def parseColumnListLoop : Nat → Tokens → List String → Except Unit (List String × Tokens)
  | 0, _, _ => .error ()
  | fuel + 1, tk, cols =>
    let t := tk.Next
    if t = ")" then .ok (cols, (tk.Take).2)
    else if t = "," then parseColumnListLoop fuel (tk.Take).2 cols
    else
      let (x, tk) := tk.Take
      parseColumnListLoop fuel tk (cols ++ [x])

/-- parseColumnList: `( column [, column]* )`; if the next token is not
an opening parenthesis the taken token is returned (cursor moved back)
and the nil list results (`parser/parser.go`). -/
def parseColumnList (fuel : Nat) (tk : Tokens) : Except Unit (List String × Tokens) :=
  let (x, tk1) := tk.Take
  if x ≠ "(" then .ok ([], tk1.Return)
  else parseColumnListLoop fuel tk1 []

/-- parseIndexedColumn is parseColumnList (`parser/parser.go`). -/
def parseIndexedColumn (fuel : Nat) (tk : Tokens) : Except Unit (List String × Tokens) :=
  parseColumnList fuel tk

/-- parseColumnDataType (`parser/parser.go`): take the datatype token
and resolve it under the strict flag; a comma or closing parenthesis
means no declared type, resolving to BLOB with the taken token given
back. -/
def parseColumnDataType (tk : Tokens) (c : Column) (strict : Bool) : Tokens × Except String Column :=
  let (s, t1) := tk.Take
  if s = "INT" ∨ s = "INTEGER" then (t1, .ok { c with Datatype := .INT })
  else if s = "FLOAT" ∨ s = "REAL" then (t1, .ok { c with Datatype := .FLOAT })
  else if s = "TEXT" then (t1, .ok { c with Datatype := .TEXT })
  else if s = "BLOB" ∨ s = "ANY" then (t1, .ok { c with Datatype := .BLOB })
  else if s = "BOOL" ∨ s = "BOOLEAN" then
    if strict then (t1, .error ("\"" ++ s ++ "\" is not a valid SQLite column type when \"strict\" is enabled"))
    else (t1, .ok { c with Datatype := .BOOL })
  else if s = "DATETIME" ∨ s = "TIMESTAMP" then
    if strict then (t1, .error ("\"" ++ s ++ "\" is not a valid SQLite column type when \"strict\" is enabled"))
    else (t1, .ok { c with Datatype := .DATETIME })
  else if s = "," ∨ s = ")" then (t1.Return, .ok { c with Datatype := .BLOB })
  else if strict then (t1, .error ("\"" ++ s ++ "\" is not a valid SQLite column type when \"strict\" is enabled"))
  else (t1, .ok { c with Datatype := .BLOB })

/-- Constraint loop of parseColumn (`parser/parser.go`).  The outer
result channel is fuel; the inner `Except String` is the Go error.  The
TEXT DEFAULT branch tests the loop's own `token` variable (which is
necessarily "DEFAULT" in that branch) against "NULL", exactly as the Go
code does with its shadowed variable. -/
def parseColumnLoop : Nat → Tokens → Column → Except Unit (Tokens × Except String Column)
  | 0, _, _ => .error ()
  | fuel + 1, tk, c =>
    let token := tk.Next
    if token = "," then
      let tk := (tk.Take).2
      if tk.Next = "--" then
        match parseComment fuel tk with
        | .error () => .error ()
        | .ok (cm, tk) => .ok (tk, .ok { c with Comment := cm })
      else .ok (tk, .ok c)
    else if token = ")" then .ok (tk, .ok c)
    else if token = "\n" then parseColumnLoop fuel (tk.Take).2 c
    else if token = "--" then
      match parseComment fuel tk with
      | .error () => .error ()
      | .ok (cm, tk) => parseColumnLoop fuel tk { c with Comment := cm }
    else if token = "NOT" then
      if tk.NextN 2 ≠ "NOT NULL" then
        .ok (tk, .error ("column constraint must be \x27NOT NULL\x27, not " ++ tk.NextN 2))
      else parseColumnLoop fuel (tk.TakeN 2) { c with Nullable := false }
    else if token = "PRIMARY" then
      if tk.NextN 2 ≠ "PRIMARY KEY" then
        .ok (tk, .error ("column constraint must be \x27PRIMARY KEY\x27, not " ++ tk.NextN 2))
      else parseColumnLoop fuel (tk.TakeN 2) { c with PrimaryKey := true }
    else if token = "AUTOINCREMENT" then
      if c.PrimaryKey then parseColumnLoop fuel (tk.Take).2 c
      else .ok (tk, .error "column constraint \x27AUTOINCREMENT\x27 must follow \x27PRIMARY KEY\x27")
    else if token = "UNIQUE" then parseColumnLoop fuel (tk.Take).2 { c with Unique := true }
    else if token = "REFERENCES" then
      match parseForeignKey fuel tk c with
      | .error () => .error ()
      | .ok (tk, .error e) => .ok (tk, .error e)
      | .ok (tk, .ok c) => parseColumnLoop fuel tk c
    else if token = "CHECK" then
      match parseCheckConstraint fuel tk with
      | .error () => .error ()
      | .ok tk => parseColumnLoop fuel tk c
    else if token = "DEFAULT" then
      let tk := (tk.Take).2
      match c.Datatype with
      | .INT =>
        let (tok2, tk) := tk.Take
        if tok2 ≠ "NULL" then
          match parseInt64 tok2 with
          | none => .ok (tk, .error ("default value for INT/INTEGER must be a valid base 10 integer or NULL, not " ++ tok2))
          | some v => parseColumnLoop fuel tk { c with DefaultInt := some v }
        else parseColumnLoop fuel tk c
      | .TEXT =>
        if token ≠ "NULL" then
          let (tok2, tk) := tk.Take
          parseColumnLoop fuel tk { c with DefaultString := some (removeQuotes tok2) }
        else parseColumnLoop fuel tk c
      | .BOOL =>
        let (tok2, tk) := tk.Take
        let unwrapped : String × Tokens :=
          if tok2 = "(" ∧ tk.Peek 1 = ")" then
            let (v, tk) := tk.Take
            (v, (tk.Take).2)
          else (tok2, tk)
        let tok2 := unwrapped.1
        let tk := unwrapped.2
        if tok2 = "NULL" then parseColumnLoop fuel tk c
        else if tok2 = "true" ∨ tok2 = "TRUE" ∨ tok2 = "1" then
          parseColumnLoop fuel tk { c with DefaultBool := some true }
        else if tok2 = "false" ∨ tok2 = "FALSE" ∨ tok2 = "0" then
          parseColumnLoop fuel tk { c with DefaultBool := some false }
        else .ok (tk, .error ("default value for BOOL/BOOLEAN must be TRUE/true/1 or FALSE/false/0, not " ++ tok2))
      | .DATETIME =>
        match parseDatetimeDefault fuel tk with
        | .error () => .error ()
        | .ok tk => parseColumnLoop fuel tk c
      | other => .ok (tk, .error ("default values for " ++ other.str ++ " type are not supported"))
    else
      .ok (tk, .error ("unrecognized column constraint for column \"" ++ c.sqlName ++ "\" starting with: \"" ++ tk.NextN 5 ++ "\""))

/-- parseColumn (`parser/parser.go`): a fresh column (nullable by
default), its quote-stripped name, its datatype, then the constraint
loop. -/
def parseColumn (fuel : Nat) (tk : Tokens) (strict : Bool) : Except Unit (Tokens × Except String Column) :=
  let c : Column :=
    { sqlName := "", Datatype := .UNKNOWN, PrimaryKey := false, CompositePrimaryKey := false,
      autoIncrement := false, Nullable := true, Unique := false, Comment := "",
      ForeignKey := none, DefaultString := none, DefaultInt := none, DefaultBool := none }
  let (nm, tk) := tk.Take
  let c := { c with sqlName := removeQuotes nm }
  match parseColumnDataType tk c strict with
  | (tk, .error e) => .ok (tk, .error e)
  | (tk, .ok c) => parseColumnLoop fuel tk c

/-!
Table model methods (`parser/table.go`).
-/

/-- markColumn marks the first column whose SQL name matches, either as
a composite-primary-key participant or as the sole primary key,
returning whether a match was found (the inner loop of
SetPrimaryKeys). -/
def markColumn : List Column → String → Bool → List Column × Bool
  | [], _, _ => ([], false)
  | col :: rest, colName, makeComposite =>
    if colName = col.sqlName then
      ((if makeComposite then { col with CompositePrimaryKey := true }
        else { col with PrimaryKey := true }) :: rest, true)
    else
      let r := markColumn rest colName makeComposite
      (col :: r.1, r.2)

/-- SetPrimaryKeys (`parser/table.go`): marks each named column
(composite when more than one name is given), collecting the names that
were found; the mutations stand even when the error naming the
requested and found column sets is returned. -/
def Table.SetPrimaryKeys (t : Table) (colNames : List String) : Table × Option String :=
  if colNames.length < 1 then (t, some "must provide at least one column name for primary key(s)")
  else
    let makeComposite := colNames.length > 1
    let r := colNames.foldl
      (fun (acc : List Column × List String) colName =>
        let m := markColumn acc.1 colName makeComposite
        (m.1, if m.2 then acc.2 ++ [colName] else acc.2))
      (t.Columns, [])
    let t := { t with Columns := r.1 }
    if colNames.length ≠ r.2.length then
      (t, some ("could not find all columns for the composite primary key ("
        ++ fmtStrList colNames ++ "); found (" ++ fmtStrList r.2 ++ ")"))
    else (t, none)

/-- Loop of PrimaryKeys (`parser/table.go`): the first column with the
sole-primary-key flag is returned alone, discarding any composite
participants collected so far; otherwise the composite participants are
collected in column order. -/
def primaryKeysLoop : List Column → List Column → List Column
  | [], pks => pks
  | col :: rest, pks =>
    if col.PrimaryKey then [col]
    else if col.CompositePrimaryKey then primaryKeysLoop rest (pks ++ [col])
    else primaryKeysLoop rest pks

/-- PrimaryKeys returns the primary-key column(s). -/
def Table.PrimaryKeys (t : Table) : List Column := primaryKeysLoop t.Columns []

/-- PrimaryKeyAutoIncrements: a single primary-key column that
auto-increments. -/
def Table.PrimaryKeyAutoIncrements (t : Table) : Bool :=
  match t.PrimaryKeys with
  | [c] => c.AutoIncrement
  | _ => false

/-- parseForeignKeyClause (out-of-line form, `parser/parser.go`).  When
the leading column list comes back empty the Go code indexes `cols[0]`
and panics; the panic, like divergence, lands on the abnormal `.error
()` channel. -/
def parseForeignKeyClause (fuel : Nat) (tk : Tokens) : Except Unit (Tokens × Except String ForeignKey) :=
  match parseColumnList fuel tk with
  | .error () => .error ()
  | .ok (cols, tk) =>
    if cols.length > 1 then
      .ok (tk, .error ("multiple columns are not currently supported in a foreign key clause: " ++ fmtStrList cols))
    else
      match cols with
      | [] => .error ()
      | fromCol :: _ =>
        let fk : ForeignKey := { Table := "", Column := fromCol, OnUpdate := .NoAction, OnDelete := .NoAction }
        match removeNewlines fuel tk with
        | .error () => .error ()
        | .ok tk =>
          let (r, tk1) := tk.Take
          if r ≠ "REFERENCES" then
            let tk2 := tk1.Return
            .ok (tk2, .error ("foreign key clause must contain \x27REFERENCES table-name\x27, not " ++ tk2.NextN 2))
          else
            let (tbl, tk) := tk1.Take
            let fk := { fk with Table := tbl }
            match parseColumnList fuel tk with
            | .error () => .error ()
            | .ok (cols2, tk) =>
              if cols2.length > 1 then
                .ok (tk, .error ("multiple columns are not currently supported in a foreign key clause: " ++ fmtStrList cols2))
              else fkActionLoop fuel tk fk

/-- parseTableConstraint (`parser/parser.go`).  Only one switch case
runs: a leading CONSTRAINT consumes the keyword and the name and
returns.  The error value returned by SetPrimaryKeys is discarded by the
Go call `table.SetPrimaryKeys(parseIndexedColumn(tokens))`, so only its
table mutation survives; the function's own error (from the foreign-key
clause) is returned in the third component. -/
def parseTableConstraint (fuel : Nat) (tk : Tokens) (table : Table) : Except Unit (Tokens × Table × Option String) :=
  if tk.Next = "CONSTRAINT" then
    let tk := ((tk.Take).2.Take).2
    .ok (tk, table, none)
  else if tk.NextN 2 = "PRIMARY KEY" then
    let tk := tk.TakeN 2
    match parseIndexedColumn fuel tk with
    | .error () => .error ()
    | .ok (cols, tk) => .ok (tk, (table.SetPrimaryKeys cols).1, none)
  else if tk.Next = "UNIQUE" then
    let tk := (tk.Take).2
    match parseIndexedColumn fuel tk with
    | .error () => .error ()
    | .ok (_, tk) => .ok (tk, table, none)
  else if tk.Next = "CHECK" then
    match parseCheckConstraint fuel tk with
    | .error () => .error ()
    | .ok tk => .ok (tk, table, none)
  else if tk.NextN 2 = "FOREIGN KEY" then
    let tk := tk.TakeN 2
    match parseForeignKeyClause fuel tk with
    | .error () => .error ()
    | .ok (tk, .error e) => .ok (tk, table, some e)
    | .ok (tk, .ok _) => .ok (tk, table, none)
  else .ok (tk, table, none)

/-- Body loop of parseCreateTable (`parser/parser.go`): dispatch on the
next token until the closing parenthesis (with optional semicolon) or
end of input; the error returned by parseTableConstraint is discarded
at its call sites. -/
def parseCreateTableLoop : Nat → Tokens → Table → Except Unit (Tokens × Except String Table)
  | 0, _, _ => .error ()
  | fuel + 1, tk, t =>
    if tk.Next = ")" then
      let tk := (tk.Take).2
      let tk := if tk.Next = ";" then (tk.Take).2 else tk
      .ok (tk, .ok t)
    else if tk.Next = "" then
      .ok (tk, .error "ran out of tokens unexpectedly - table was likely not closed properly")
    else if tk.Next = "\n" then parseCreateTableLoop fuel (tk.Take).2 t
    else if tk.Next = "," then parseCreateTableLoop fuel (tk.Take).2 t
    else if tk.Next = "--" then
      match parseComment fuel tk with
      | .error () => .error ()
      | .ok (_, tk) => parseCreateTableLoop fuel tk t
    else if tk.Next = "CONSTRAINT" ∨ tk.Next = "PRIMARY" ∨ tk.Next = "UNIQUE"
         ∨ tk.Next = "CHECK" ∨ tk.Next = "FOREIGN" then
      match parseTableConstraint fuel tk t with
      | .error () => .error ()
      | .ok (tk, t, _) => parseCreateTableLoop fuel tk t
    else
      match parseColumn fuel tk t.Strict with
      | .error () => .error ()
      | .ok (tk, .error e) => .ok (tk, .error e)
      | .ok (tk, .ok col) => parseCreateTableLoop fuel tk { t with Columns := t.Columns ++ [col] }

/-- parseCreateTable (`parser/parser.go`): the statement header —
CREATE, optional TEMP/TEMPORARY, TABLE, optional atomic IF NOT EXISTS,
the (optionally schema-qualified) quote-stripped name, optional opening
parenthesis and trailing comment — then the body loop.  The Table is
constructed with Strict false and nothing ever sets it. -/
def parseCreateTable (fuel : Nat) (tk : Tokens) : Except Unit (Tokens × Except String Table) :=
  let t : Table := { Strict := false, SchemaName := "", sqlName := "", Temp := false,
                     IfNotExists := false, Columns := [], Comment := "" }
  let (x, tk) := tk.Take
  if x ≠ "CREATE" then
    .ok (tk, .error ("create table must begin with \x27CREATE\x27, not " ++ tk.Next))
  else
    let tempStep : Table × Tokens :=
      if tk.Next = "TEMP" ∨ tk.Next = "TEMPORARY" then ({ t with Temp := true }, (tk.Take).2)
      else (t, tk)
    let t := tempStep.1
    let (x, tk) := tempStep.2.Take
    if x ≠ "TABLE" then
      .ok (tk, .error ("create table must begin with \x27CREATE [TEMP|TEMPORARY] TABLE\x27, not " ++ tk.Next))
    else if tk.Next = "IF" ∧ tk.NextN 3 ≠ "IF NOT EXISTS" then
      .ok (tk, .error ("create table must use \x27IF NOT EXISTS\x27 when \x27IF\x27 is present, not " ++ tk.NextN 3))
    else
      let ifStep : Table × Tokens :=
        if tk.Next = "IF" then ({ t with IfNotExists := true }, tk.TakeN 3) else (t, tk)
      let t := ifStep.1
      let tk := ifStep.2
      let nameStep : Table × Tokens :=
        if tk.Peek 1 = "." then
          let (sch, tk) := tk.Take
          let tk := (tk.Take).2
          let (nm, tk) := tk.Take
          ({ t with SchemaName := removeQuotes sch, sqlName := removeQuotes nm }, tk)
        else
          let (nm, tk) := tk.Take
          ({ t with sqlName := removeQuotes nm }, tk)
      let t := nameStep.1
      let tk := nameStep.2
      let tk := if tk.Next = "(" then (tk.Take).2 else tk
      match parseComment fuel tk with
      | .error () => .error ()
      | .ok (cm, tk) => parseCreateTableLoop fuel tk { t with Comment := cm }

/-- Loop of parseCreateIndex (`parser/parser.go`): scan to the
terminating semicolon, ignoring newlines; end of input is a Go error
carrying up to five tokens of context. -/
def parseCreateIndexLoop : Nat → Tokens → List String → Except Unit (Tokens × Option String)
  | 0, _, _ => .error ()
  | fuel + 1, tk, value =>
    let (token, tk) := tk.Take
    if token = ";" then .ok (tk, none)
    else if token = "\n" then parseCreateIndexLoop fuel tk value
    else if token = "" then
      let shortValue :=
        if value.length > 5 then String.intercalate " " (value.take 5)
        else String.intercalate " " value
      .ok (tk, some ("expected closing semi-colon while parsing CREATE INDEX, but found end of SQL: " ++ shortValue))
    else parseCreateIndexLoop fuel tk (value ++ [token])

/-- parseCreateIndex: the first token is taken and discarded before the
scan loop. -/
def parseCreateIndex (fuel : Nat) (tk : Tokens) : Except Unit (Tokens × Option String) :=
  parseCreateIndexLoop fuel ((tk.Take).2) []

/-- Statement loop of Parse (`parser/parser.go`): skip newlines, stop at
end of input, dispatch CREATE TABLE and CREATE [UNIQUE] INDEX, reject
anything else. -/
def ParseLoop : Nat → Tokens → List Table → Except Unit (Except String (List Table))
  | 0, _, _ => .error ()
  | fuel + 1, tk, tables =>
    if tk.Next = "\n" then ParseLoop fuel (tk.Take).2 tables
    else if tk.Next = "" then .ok (.ok tables)
    else if tk.NextN 2 = "CREATE TABLE" then
      match parseCreateTable fuel tk with
      | .error () => .error ()
      | .ok (_, .error e) => .ok (.error e)
      | .ok (tk, .ok t) => ParseLoop fuel tk (tables ++ [t])
    else if tk.NextN 2 = "CREATE INDEX" ∨ tk.NextN 3 = "CREATE UNIQUE INDEX" then
      match parseCreateIndex fuel tk with
      | .error () => .error ()
      | .ok (_, some e) => .ok (.error e)
      | .ok (tk, none) => ParseLoop fuel tk tables
    else .ok (.error ("unsupported statement: " ++ tk.NextN 3))

/-- Parse SQL text to a list of tables (`parser/parser.go`). -/
def Parse (fuel : Nat) (sql : String) : Except Unit (Except String (List Table)) :=
  ParseLoop fuel (Lex sql) []

/-!
Auxiliary definitions for the statements: the token-stream operation
alphabet, the lexer's separator alphabet, and concrete values used in
witnesses and counterexamples.
-/

/-- TokenOp: the six public token-stream primitives (plus NextN); the
read operations never move the cursor. -/
inductive TokenOp where
  | next
  | nextN (n : Nat)
  | peek (n : Nat)
  | take
  | takeN (n : Nat)
  | ret
  | retN (n : Nat)
deriving DecidableEq, Repr

/-- State effect of one token-stream operation (reads are identities on
the state). -/
def TokenOp.apply : TokenOp → Tokens → Tokens
  | .next, t => t
  | .nextN _, t => t
  | .peek _, t => t
  | .take, t => (t.Take).2
  | .takeN n, t => t.TakeN n
  | .ret, t => t.Return
  | .retN n, t => t.ReturnN n

/-- applyOps runs a sequence of token-stream operations. -/
def applyOps (ops : List TokenOp) (t : Tokens) : Tokens :=
  ops.foldl (fun t op => op.apply t) t

/-- ch10 is the newline character. -/
def ch10 : Char := Char.ofNat 10

/-- isSepChar: the characters the lexer treats as token separators or
single-character tokens (space, tab, comma, parentheses, semicolon). -/
def isSepChar (c : Char) : Bool :=
  c == ' ' || c == '\t' || c == ',' || c == '(' || c == ')' || c == ';'

/-- Base column value for concrete instances: the state of a fresh
parseColumn column before name and type are filled in. -/
def col0 : Column :=
  { sqlName := "", Datatype := .UNKNOWN, PrimaryKey := false, CompositePrimaryKey := false,
    autoIncrement := false, Nullable := true, Unique := false, Comment := "",
    ForeignKey := none, DefaultString := none, DefaultInt := none, DefaultBool := none }

/-- Base table value for concrete instances. -/
def table0 : Table :=
  { Strict := false, SchemaName := "", sqlName := "", Temp := false, IfNotExists := false,
    Columns := [], Comment := "" }

/-- Concrete column: the sole TEXT primary key of the users scenario. -/
def usersNameCol : Column := { col0 with sqlName := "name", Datatype := .TEXT, PrimaryKey := true }

/-- Concrete table of the users scenario. -/
def usersTable : Table := { table0 with sqlName := "users", Columns := [usersNameCol] }

/-- Concrete column for the inline foreign-key scenario. -/
def spouseCol : Column := { col0 with sqlName := "spouse" }

/-- The spouse column after its REFERENCES constraint is parsed. -/
def spouseColOut : Column :=
  { col0 with
    sqlName := "spouse",
    ForeignKey := some { Table := "people", Column := "id", OnUpdate := .NoAction, OnDelete := .NoAction } }

/-- Concrete column: an INT column named a marked as a composite
primary-key participant. -/
def aCompCol : Column := { col0 with sqlName := "a", Datatype := .INT, CompositePrimaryKey := true }

/-- Concrete column: an INT column named b marked as a composite
primary-key participant. -/
def bCompCol : Column := { col0 with sqlName := "b", Datatype := .INT, CompositePrimaryKey := true }

/-- Concrete table holding a single INT column named a, before any
table constraint runs. -/
def c2TableIn : Table :=
  { table0 with sqlName := "t", Columns := [{ col0 with sqlName := "a", Datatype := .INT }] }

/-- The table the parse actually returns for the bad composite-key
input: only column a exists and only it got marked. -/
def c2BadTable : Table := { table0 with sqlName := "t", Columns := [aCompCol] }

/-- The table the parse returns for the well-formed composite-key
input (constraint names the columns in reverse order). -/
def c2OkTable : Table := { table0 with sqlName := "t2", Columns := [aCompCol, bCompCol] }

/-- The TEXT column the parse produces for `a TEXT DEFAULT NULL`: the
literal NULL is stored as the default string. -/
def c4Col : Column := { col0 with sqlName := "a", Datatype := .TEXT, DefaultString := some "NULL" }

/-- Table wrapping `c4Col`. -/
def c4Table : Table := { table0 with sqlName := "t", Columns := [c4Col] }

/-- The table produced for `a INT DEFAULT NULL`: no default stored. -/
def c4IntTable : Table :=
  { table0 with sqlName := "t", Columns := [{ col0 with sqlName := "a", Datatype := .INT }] }

/-- The column the parse produces for
`id INT PRIMARY KEY NOT NULL AUTOINCREMENT`. -/
def c8ColOut : Column :=
  { col0 with sqlName := "id", Datatype := .INT, PrimaryKey := true, Nullable := false }

/-!
Theorems.  General lemmas about the token stream come first, then the
per-claim results.
-/

/-- The token handed out by Take is exactly the Next token. -/
theorem Tokens.Take_fst (t : Tokens) : (t.Take).1 = t.Next := by
  unfold Tokens.Take Tokens.Next
  split <;> rfl

/-- Take followed by Return is the identity whenever a token is
available. -/
theorem Tokens.Take_Return (t : Tokens) (h : t.Next ≠ "") : ((t.Take).2).Return = t := by
  unfold Tokens.Next at h
  unfold Tokens.Take Tokens.Return
  split
  · simp
  · simp at h
    omega

/-- Take leaves the token sequence unchanged. -/
theorem Tokens.Take_tokens (t : Tokens) : ((t.Take).2).tokens = t.tokens := by
  unfold Tokens.Take
  split <;> rfl

/-- Take keeps an in-bounds cursor in bounds. -/
theorem Tokens.Take_i_le (t : Tokens) (h : t.i ≤ t.tokens.length) :
    ((t.Take).2).i ≤ t.tokens.length := by
  unfold Tokens.Take
  split
  · show t.i + 1 ≤ t.tokens.length
    omega
  · exact h

/-- TakeN leaves the token sequence unchanged. -/
theorem Tokens.TakeN_tokens (t : Tokens) (n : Nat) : (t.TakeN n).tokens = t.tokens := by
  unfold Tokens.TakeN
  split <;> rfl

/-- TakeN keeps an in-bounds cursor in bounds. -/
theorem Tokens.TakeN_i_le (t : Tokens) (n : Nat) (h : t.i ≤ t.tokens.length) :
    (t.TakeN n).i ≤ t.tokens.length := by
  unfold Tokens.TakeN
  split
  · show t.i + n ≤ t.tokens.length
    omega
  · exact h

/-- Return leaves the token sequence unchanged. -/
theorem Tokens.Return_tokens (t : Tokens) : (t.Return).tokens = t.tokens := by
  unfold Tokens.Return
  split <;> rfl

/-- Return keeps an in-bounds cursor in bounds. -/
theorem Tokens.Return_i_le (t : Tokens) (h : t.i ≤ t.tokens.length) :
    (t.Return).i ≤ t.tokens.length := by
  unfold Tokens.Return
  split
  · exact h
  · show t.i - 1 ≤ t.tokens.length
    omega

/-- ReturnN leaves the token sequence unchanged. -/
theorem Tokens.ReturnN_tokens (t : Tokens) (n : Nat) : (t.ReturnN n).tokens = t.tokens := by
  unfold Tokens.ReturnN
  split <;> rfl

/-- ReturnN keeps an in-bounds cursor in bounds. -/
theorem Tokens.ReturnN_i_le (t : Tokens) (n : Nat) (h : t.i ≤ t.tokens.length) :
    (t.ReturnN n).i ≤ t.tokens.length := by
  unfold Tokens.ReturnN
  split
  · exact h
  · show t.i - n ≤ t.tokens.length
    omega

/-- Every token-stream operation leaves the sequence unchanged and keeps
an in-bounds cursor in bounds. -/
theorem TokenOp.apply_inv (op : TokenOp) (t : Tokens) :
    (op.apply t).tokens = t.tokens
    ∧ (t.i ≤ t.tokens.length → (op.apply t).i ≤ t.tokens.length) := by
  cases op with
  | next => exact ⟨rfl, fun h => h⟩
  | nextN n => exact ⟨rfl, fun h => h⟩
  | peek n => exact ⟨rfl, fun h => h⟩
  | take => exact ⟨t.Take_tokens, t.Take_i_le⟩
  | takeN n => exact ⟨t.TakeN_tokens n, t.TakeN_i_le n⟩
  | ret => exact ⟨t.Return_tokens, t.Return_i_le⟩
  | retN n => exact ⟨t.ReturnN_tokens n, t.ReturnN_i_le n⟩

/-- Sequences of token-stream operations leave the sequence unchanged
and keep an in-bounds cursor in bounds. -/
theorem applyOps_inv (ops : List TokenOp) (t : Tokens) (h : t.i ≤ t.tokens.length) :
    (applyOps ops t).tokens = t.tokens ∧ (applyOps ops t).i ≤ t.tokens.length := by
  induction ops generalizing t with
  | nil => exact ⟨rfl, h⟩
  | cons op rest ih =>
    have h1 := TokenOp.apply_inv op t
    have h2 := ih (op.apply t) (by rw [h1.1]; exact h1.2 h)
    refine ⟨?_, ?_⟩
    · show (applyOps rest (op.apply t)).tokens = t.tokens
      rw [h2.1, h1.1]
    · show (applyOps rest (op.apply t)).i ≤ t.tokens.length
      have := h2.2
      rwa [h1.1] at this

/-- Claim C7: starting from a fresh stream, any sequence of
Next/NextN/Peek/Take/TakeN/Return/ReturnN operations keeps the cursor
within the bounds zero to sequence length (the cursor is a `Nat`, so
nonnegativity is structural and the Go guards against going below zero
appear as the Return/ReturnN no-op clauses); reads past the end yield
the empty-string sentinel, Take at the end is a no-op, and
Return/ReturnN at the boundary leave the cursor unchanged. -/
theorem c7_cursor_safety (l : List String) (ops : List TokenOp) :
    ((applyOps ops (NewTokens l)).tokens = l ∧ (applyOps ops (NewTokens l)).i ≤ l.length)
    ∧ (∀ t : Tokens, t.tokens.length ≤ t.i →
        t.Next = "" ∧ (∀ k, t.Peek k = "") ∧ t.Take = ("", t))
    ∧ (∀ t : Tokens, t.i = 0 → t.Return = t)
    ∧ (∀ (t : Tokens) (n : Nat), t.i < n → t.ReturnN n = t) := by
  refine ⟨?_, ?_, ?_, ?_⟩
  · exact applyOps_inv ops (NewTokens l) (by simp [NewTokens])
  · intro t h
    refine ⟨?_, ?_, ?_⟩
    · unfold Tokens.Next
      rw [if_neg (by omega)]
    · intro k
      unfold Tokens.Peek
      rw [if_neg (by omega)]
    · unfold Tokens.Take
      rw [if_neg (by omega)]
  · intro t h
    unfold Tokens.Return
    rw [if_pos h]
  · intro t n h
    unfold Tokens.ReturnN
    rw [if_pos h]

/-- Witness for C7 at a concrete stream and operation sequence. -/
theorem c7_cursor_safety_witness :
    ((applyOps [TokenOp.take, TokenOp.takeN 5, TokenOp.retN 9] (NewTokens ["a", "b"])).tokens = ["a", "b"]
      ∧ (applyOps [TokenOp.take, TokenOp.takeN 5, TokenOp.retN 9] (NewTokens ["a", "b"])).i ≤ 2)
    ∧ ((NewTokens []).tokens.length ≤ (NewTokens []).i → (NewTokens []).Next = "") :=
  ⟨(c7_cursor_safety ["a", "b"] [TokenOp.take, TokenOp.takeN 5, TokenOp.retN 9]).1,
    fun h => ((c7_cursor_safety [] []).2.1 (NewTokens []) h).1⟩

/-- Claim C6 (behavior of the code at the failing boundary): with
exactly n tokens remaining TakeN leaves the cursor unchanged, because
the Go guard `t.i + n < t.length` is strict; with strictly more than n
remaining it advances by n. -/
theorem c6_taken_exact_remainder_noop :
    ((NewTokens ["a", "b"]).TakeN 2).i = 0
    ∧ ((NewTokens ["a", "b", "c"]).TakeN 2).i = 2 := by
  decide

/-- primaryKeysLoop commutes with mapping a function that preserves both
primary-key flags. -/
theorem primaryKeysLoop_map (f : Column → Column)
    (hPK : ∀ c, (f c).PrimaryKey = c.PrimaryKey)
    (hCPK : ∀ c, (f c).CompositePrimaryKey = c.CompositePrimaryKey)
    (cols acc : List Column) :
    primaryKeysLoop (cols.map f) (acc.map f) = (primaryKeysLoop cols acc).map f := by
  induction cols generalizing acc with
  | nil => simp [primaryKeysLoop]
  | cons col rest ih =>
    simp only [List.map_cons, primaryKeysLoop, hPK, hCPK]
    by_cases h1 : col.PrimaryKey = true
    · simp [h1]
    · simp only [h1, if_false]
      by_cases h2 : col.CompositePrimaryKey = true
      · simp only [h2, if_true]
        rw [show (acc.map f) ++ [f col] = (acc ++ [col]).map f by simp]
        exact ih (acc ++ [col])
      · simp only [h2, if_false]
        exact ih acc

/-- Claim C1: when PrimaryKeys returns exactly one column,
PrimaryKeyAutoIncrements is true iff that column's Datatype is INT and
its PrimaryKey flag is set; the explicit-AUTOINCREMENT flag is
irrelevant (overwriting it on every column changes nothing). -/
theorem c1_single_pk_auto_increments (t : Table) (c : Column)
    (h : t.PrimaryKeys = [c]) :
    (t.PrimaryKeyAutoIncrements = true ↔ (c.Datatype = Datatype.INT ∧ c.PrimaryKey = true))
    ∧ (∀ b : Bool,
        Table.PrimaryKeyAutoIncrements
            { t with Columns := t.Columns.map (fun col => { col with autoIncrement := b }) }
          = t.PrimaryKeyAutoIncrements) := by
  constructor
  · unfold Table.PrimaryKeyAutoIncrements
    rw [h]
    simp only [Column.AutoIncrement, Bool.and_eq_true, decide_eq_true_eq]
    tauto
  · intro b
    unfold Table.PrimaryKeyAutoIncrements Table.PrimaryKeys
    have hmap := primaryKeysLoop_map (fun col => { col with autoIncrement := b })
      (fun _ => rfl) (fun _ => rfl) t.Columns []
    simp only [List.map_nil] at hmap
    show (match primaryKeysLoop (t.Columns.map (fun col => { col with autoIncrement := b })) [] with
          | [c] => c.AutoIncrement
          | _ => false)
        = (match primaryKeysLoop t.Columns [] with
          | [c] => c.AutoIncrement
          | _ => false)
    rw [hmap]
    cases primaryKeysLoop t.Columns [] with
    | nil => rfl
    | cons a rest =>
      cases rest with
      | nil => rfl
      | cons a2 rest2 => rfl

/-- Witness for C1 at the users scenario table. -/
theorem c1_single_pk_auto_increments_witness :
    usersTable.PrimaryKeys = [usersNameCol]
    ∧ (usersTable.PrimaryKeyAutoIncrements = true
        ↔ (usersNameCol.Datatype = Datatype.INT ∧ usersNameCol.PrimaryKey = true)) :=
  ⟨by decide, (c1_single_pk_auto_increments usersTable usersNameCol (by decide)).1⟩

/-- Claim C3: resolution of the column datatype token.  INT/INTEGER,
FLOAT/REAL, TEXT, BLOB/ANY resolve unconditionally; BOOL/BOOLEAN and
DATETIME/TIMESTAMP resolve but are errors under strict mode; an
immediately-following comma or closing parenthesis resolves to BLOB
with the stream exactly as it was (no net token consumed); any other
token is an error under strict mode and resolves to BLOB otherwise. -/
theorem c3_datatype_resolution (tk : Tokens) (c : Column) (strict : Bool) :
    (tk.Next = "INT" ∨ tk.Next = "INTEGER" →
      parseColumnDataType tk c strict = ((tk.Take).2, .ok { c with Datatype := .INT }))
    ∧ (tk.Next = "FLOAT" ∨ tk.Next = "REAL" →
      parseColumnDataType tk c strict = ((tk.Take).2, .ok { c with Datatype := .FLOAT }))
    ∧ (tk.Next = "TEXT" →
      parseColumnDataType tk c strict = ((tk.Take).2, .ok { c with Datatype := .TEXT }))
    ∧ (tk.Next = "BLOB" ∨ tk.Next = "ANY" →
      parseColumnDataType tk c strict = ((tk.Take).2, .ok { c with Datatype := .BLOB }))
    ∧ (tk.Next = "BOOL" ∨ tk.Next = "BOOLEAN" →
      parseColumnDataType tk c strict =
        if strict then
          ((tk.Take).2, .error ("\"" ++ tk.Next ++ "\" is not a valid SQLite column type when \"strict\" is enabled"))
        else ((tk.Take).2, .ok { c with Datatype := .BOOL }))
    ∧ (tk.Next = "DATETIME" ∨ tk.Next = "TIMESTAMP" →
      parseColumnDataType tk c strict =
        if strict then
          ((tk.Take).2, .error ("\"" ++ tk.Next ++ "\" is not a valid SQLite column type when \"strict\" is enabled"))
        else ((tk.Take).2, .ok { c with Datatype := .DATETIME }))
    ∧ (tk.Next = "," ∨ tk.Next = ")" →
      parseColumnDataType tk c strict = (tk, .ok { c with Datatype := .BLOB }))
    ∧ (tk.Next ≠ "INT" ∧ tk.Next ≠ "INTEGER" ∧ tk.Next ≠ "FLOAT" ∧ tk.Next ≠ "REAL"
        ∧ tk.Next ≠ "TEXT" ∧ tk.Next ≠ "BLOB" ∧ tk.Next ≠ "ANY" ∧ tk.Next ≠ "BOOL"
        ∧ tk.Next ≠ "BOOLEAN" ∧ tk.Next ≠ "DATETIME" ∧ tk.Next ≠ "TIMESTAMP"
        ∧ tk.Next ≠ "," ∧ tk.Next ≠ ")" →
      parseColumnDataType tk c strict =
        if strict then
          ((tk.Take).2, .error ("\"" ++ tk.Next ++ "\" is not a valid SQLite column type when \"strict\" is enabled"))
        else ((tk.Take).2, .ok { c with Datatype := .BLOB })) := by
  have hTake : tk.Take = (tk.Next, (tk.Take).2) := by
    rw [← Tokens.Take_fst]
  refine ⟨?_, ?_, ?_, ?_, ?_, ?_, ?_, ?_⟩
  · rintro (h | h) <;> (unfold parseColumnDataType; rw [hTake, h]; simp)
  · rintro (h | h) <;> (unfold parseColumnDataType; rw [hTake, h]; simp)
  · intro h
    unfold parseColumnDataType
    rw [hTake, h]
    simp
  · rintro (h | h) <;> (unfold parseColumnDataType; rw [hTake, h]; simp)
  · rintro (h | h) <;>
      (unfold parseColumnDataType; rw [hTake, h]; cases strict <;> simp)
  · rintro (h | h) <;>
      (unfold parseColumnDataType; rw [hTake, h]; cases strict <;> simp)
  · rintro (h | h) <;>
      (have hret := Tokens.Take_Return tk (by rw [h]; decide);
       unfold parseColumnDataType; rw [hTake, h]; simp [hret])
  · rintro ⟨h1, h2, h3, h4, h5, h6, h7, h8, h9, h10, h11, h12, h13⟩
    unfold parseColumnDataType
    rw [hTake]
    cases strict <;> simp [h1, h2, h3, h4, h5, h6, h7, h8, h9, h10, h11, h12, h13]

/-- Witness for C3: a type-less column (immediately-following comma)
resolves to BLOB with no net token consumed, even under strict mode. -/
theorem c3_datatype_resolution_witness :
    ((NewTokens [",", ")"]).Next = "," ∨ (NewTokens [",", ")"]).Next = ")")
    ∧ parseColumnDataType (NewTokens [",", ")"]) col0 true
        = (NewTokens [",", ")"], .ok { col0 with Datatype := .BLOB }) :=
  ⟨Or.inl (by decide),
    (c3_datatype_resolution (NewTokens [",", ")"]) col0 true).2.2.2.2.2.2.1 (Or.inl (by decide))⟩

/-- parseFkAction only updates the action fields: the referenced table
and column survive. -/
theorem parseFkAction_preserves (tk : Tokens) (fk fk' : ForeignKey) (tk' : Tokens)
    (h : parseFkAction tk fk = .ok (fk', tk')) :
    fk'.Table = fk.Table ∧ fk'.Column = fk.Column := by
  unfold parseFkAction at h
  repeat' split at h
  all_goals first
    | exact Except.noConfusion h
    | (simp only [Except.ok.injEq, Prod.mk.injEq] at h
       obtain ⟨h1, h2⟩ := h
       subst h1
       exact ⟨rfl, rfl⟩)

/-- The action loop only updates the action fields of the foreign
key. -/
theorem fkActionLoop_preserves (fuel : Nat) (tk : Tokens) (fk : ForeignKey)
    (tk' : Tokens) (fk' : ForeignKey)
    (h : fkActionLoop fuel tk fk = .ok (tk', .ok fk')) :
    fk'.Table = fk.Table ∧ fk'.Column = fk.Column := by
  induction fuel generalizing tk fk with
  | zero => exact absurd h (by simp [fkActionLoop])
  | succ fuel ih =>
    unfold fkActionLoop at h
    split at h
    · simp only [Except.ok.injEq, Prod.mk.injEq] at h
      obtain ⟨-, h2⟩ := h
      subst h2
      exact ⟨rfl, rfl⟩
    · split at h
      · simp at h
      · rename_i fk2 tk2 heq
        have hp := parseFkAction_preserves tk fk fk2 tk2 heq
        have hl := ih tk2 fk2 h
        exact ⟨hl.1.trans hp.1, hl.2.trans hp.2⟩

/-- Claim C5: for the inline REFERENCES constraint, the absence of any
following token is the error case; on every successful parse the
foreign key's referenced table is the token after REFERENCES, and its
referenced column is the sole token of the parenthesized group when
that group is present and the referencing column's own SQL name when it
is absent. -/
theorem c5_inline_fk (fuel : Nat) (tk : Tokens) (c : Column) :
    (tk.Peek 1 = "" →
      parseForeignKey fuel tk c =
        .ok (tk, .error ("column foreign key constraint \x27REFERENCES\x27 must be followed by a table name, not " ++ tk.NextN 2)))
    ∧ (∀ tk' c', parseForeignKey fuel tk c = .ok (tk', .ok c') →
        ∃ fk, c'.ForeignKey = some fk
          ∧ fk.Table = (((tk.Take).2).Take).1
          ∧ fk.Column =
              (if (((tk.Take).2).Take).2.Next = "(" ∧ (((tk.Take).2).Take).2.Peek 2 = ")"
               then (((tk.Take).2).Take).2.Peek 1
               else c.sqlName)) := by
  constructor
  · intro h
    unfold parseForeignKey
    rw [if_pos h]
  · intro tk' c' h
    unfold parseForeignKey at h
    split at h
    · simp at h
    · dsimp only at h
      by_cases hP : (((tk.Take).2).Take).2.Next = "(" ∧ (((tk.Take).2).Take).2.Peek 2 = ")"
      · rw [if_pos hP] at h
        split at h
        · exact absurd h (by simp)
        · simp at h
        · rename_i tkx fkx heq
          simp only [Except.ok.injEq, Prod.mk.injEq] at h
          obtain ⟨-, h2⟩ := h
          subst h2
          refine ⟨fkx, rfl, ?_, ?_⟩
          · exact (fkActionLoop_preserves fuel _ _ tkx fkx heq).1
          · rw [if_pos hP]
            exact (fkActionLoop_preserves fuel _ _ tkx fkx heq).2
      · rw [if_neg hP] at h
        split at h
        · exact absurd h (by simp)
        · simp at h
        · rename_i tkx fkx heq
          simp only [Except.ok.injEq, Prod.mk.injEq] at h
          obtain ⟨-, h2⟩ := h
          subst h2
          refine ⟨fkx, rfl, ?_, ?_⟩
          · exact (fkActionLoop_preserves fuel _ _ tkx fkx heq).1
          · rw [if_neg hP]
            exact (fkActionLoop_preserves fuel _ _ tkx fkx heq).2

/-- Witness for C5 at the two scenario inputs: an explicit referenced
column, and the defaulted one. -/
theorem c5_inline_fk_witness :
    (parseForeignKey 10 (NewTokens ["REFERENCES", "people", "(", "id", ")", "\n"]) spouseCol
        = .ok ({ tokens := ["REFERENCES", "people", "(", "id", ")", "\n"], i := 5 }, .ok spouseColOut))
    ∧ (∃ fk, spouseColOut.ForeignKey = some fk ∧ fk.Table = "people" ∧ fk.Column = "id") := by
  constructor
  · decide
  · have h := (c5_inline_fk 10 (NewTokens ["REFERENCES", "people", "(", "id", ")", "\n"]) spouseCol).2
      { tokens := ["REFERENCES", "people", "(", "id", ")", "\n"], i := 5 } spouseColOut (by decide)
    obtain ⟨fk, h1, h2, h3⟩ := h
    exact ⟨fk, h1, by rw [h2]; decide, by rw [h3]; decide⟩

/-- Claim C2 (behavior of the code): the all-match half of the claim
holds — the well-formed constraint marks every named column composite
and PrimaryKeys returns them in declaration order — and SetPrimaryKeys
does construct the error naming both the requested and found column
sets; but that error is discarded at its call site, so the parse of the
input naming an undefined column succeeds instead of failing, returning
the table with only the found column marked. -/
theorem c2_composite_pk_error_discarded :
    ((c2TableIn.SetPrimaryKeys ["a", "b"]).2
        = some "could not find all columns for the composite primary key ([a b]); found ([a])")
    ∧ Parse 50 "CREATE TABLE t ( a INT, PRIMARY KEY (a, b) )" = .ok (.ok [c2BadTable])
    ∧ Parse 50 "CREATE TABLE t2 ( a INT, b INT, PRIMARY KEY (b, a) )" = .ok (.ok [c2OkTable])
    ∧ c2OkTable.PrimaryKeys = [aCompCol, bCompCol] := by
  refine ⟨by decide, by decide, by decide, by decide⟩

/-- Claim C4 (behavior of the code at the failing input): a TEXT column
declared DEFAULT NULL gets the literal string NULL stored as its
default (the Go guard tests the shadowed outer token, which is always
DEFAULT, against NULL), while an INT column declared DEFAULT NULL
correctly stores no default. -/
theorem c4_text_default_null_stored :
    Parse 50 "CREATE TABLE t ( a TEXT DEFAULT NULL )" = .ok (.ok [c4Table])
    ∧ c4Table.Columns.map Column.DefaultString = [some "NULL"]
    ∧ Parse 50 "CREATE TABLE t ( a INT DEFAULT NULL )" = .ok (.ok [c4IntTable])
    ∧ c4IntTable.Columns.map Column.DefaultInt = [none] := by
  refine ⟨by decide, by decide, by decide, by decide⟩

/-- Claim C8, counterexample: in
`id INT PRIMARY KEY NOT NULL AUTOINCREMENT` the AUTOINCREMENT token
does not immediately follow the PRIMARY KEY declaration (NOT NULL
stands between), yet parseColumn succeeds rather than returning an
error. -/
theorem c8_autoincrement_counterexample :
    parseColumn 50 (NewTokens ["id", "INT", "PRIMARY", "KEY", "NOT", "NULL", "AUTOINCREMENT", ")", "\n"]) false
      = .ok ({ tokens := ["id", "INT", "PRIMARY", "KEY", "NOT", "NULL", "AUTOINCREMENT", ")", "\n"], i := 7 },
          .ok c8ColOut) := by
  decide

/-- Claim C8 as amended: an AUTOINCREMENT token is accepted exactly
when the column's PrimaryKey flag has already been set by an earlier
PRIMARY KEY in the constraint list (not necessarily immediately
before); when the flag is not yet set, parseColumn fails with the
AUTOINCREMENT-must-follow error. -/
theorem c8_autoincrement_amended (fuel : Nat) (tk : Tokens) (c : Column)
    (h : tk.Next = "AUTOINCREMENT") :
    (c.PrimaryKey = false →
      parseColumnLoop (fuel + 1) tk c =
        .ok (tk, .error "column constraint \x27AUTOINCREMENT\x27 must follow \x27PRIMARY KEY\x27"))
    ∧ (c.PrimaryKey = true →
      parseColumnLoop (fuel + 1) tk c = parseColumnLoop fuel (tk.Take).2 c) := by
  constructor <;> intro hc <;> simp [parseColumnLoop, h, hc]

/-- Witness for the amended C8 at a concrete stream and column. -/
theorem c8_autoincrement_amended_witness :
    (NewTokens ["AUTOINCREMENT", ")"]).Next = "AUTOINCREMENT"
    ∧ col0.PrimaryKey = false
    ∧ parseColumnLoop 5 (NewTokens ["AUTOINCREMENT", ")"]) col0
        = .ok (NewTokens ["AUTOINCREMENT", ")"],
            .error "column constraint \x27AUTOINCREMENT\x27 must follow \x27PRIMARY KEY\x27") :=
  ⟨by decide, by decide, (c8_autoincrement_amended 4 (NewTokens ["AUTOINCREMENT", ")"]) col0 (by decide)).1 (by decide)⟩

/-- A run of non-separator characters never splits: it extends the
in-progress token and is flushed whole at the end of the run. -/
theorem lexLine_no_sep (cs : List Char) (tokens : List String) (token : String)
    (h : ∀ c ∈ cs, isSepChar c = false) :
    lexLine cs tokens token =
      if (token.data ++ cs).isEmpty then tokens else tokens ++ [String.mk (token.data ++ cs)] := by
  induction cs generalizing token with
  | nil =>
    show (if token = "" then tokens else tokens ++ [token]) = _
    by_cases ht : token = ""
    · subst ht
      simp
    · rw [if_neg ht, if_neg ?hne]
      case hne =>
        simp only [List.append_nil]
        intro hE
        apply ht
        cases token with
        | mk d =>
          cases d with
          | nil => rfl
          | cons a as => simp at hE
      have hmk : String.mk (token.data ++ []) = token := by
        rw [List.append_nil]
      rw [hmk]
  | cons ch rest ih =>
    have hch := h ch (List.mem_cons_self ch rest)
    have hrest : ∀ c ∈ rest, isSepChar c = false := fun c hc => h c (List.mem_cons_of_mem ch hc)
    simp only [isSepChar, Bool.or_eq_false_iff, beq_eq_false_iff_ne, ne_eq] at hch
    obtain ⟨⟨⟨⟨⟨h1, h2⟩, h3⟩, h4⟩, h5⟩, h6⟩ := hch
    show lexLine (ch :: rest) tokens token = _
    unfold lexLine
    rw [if_neg (by tauto), if_neg (by tauto)]
    rw [ih (token.push ch) hrest]
    simp [String.push]

/-- Pieces produced by splitLines contain no newline character. -/
theorem splitLines_no_newline (l : List Char) :
    ∀ piece ∈ splitLines l, ¬ ch10 ∈ piece := by
  induction l with
  | nil =>
    intro piece hp
    simp only [splitLines, List.mem_singleton] at hp
    subst hp
    simp
  | cons c rest ih =>
    intro piece hp
    unfold splitLines at hp
    split at hp
    · rcases List.mem_cons.mp hp with rfl | hmem
      · simp
      · exact ih piece hmem
    · rename_i hc
      split at hp
      · rename_i hsplit
        simp only [List.mem_singleton] at hp
        subst hp
        intro hmem
        rcases List.mem_singleton.mp hmem with rfl
        exact hc rfl
      · rename_i l1 ls hsplit
        rcases List.mem_cons.mp hp with rfl | hmem
        · intro hmem2
          rcases List.mem_cons.mp hmem2 with rfl | hmem3
          · exact hc rfl
          · exact ih l1 (hsplit ▸ List.mem_cons_self l1 ls) hmem3
        · exact ih piece (hsplit ▸ List.mem_cons_of_mem l1 hmem)

/-- lexLine emits no newline token when neither the line nor the
in-progress token contains a newline character. -/
theorem lexLine_count_newline (cs : List Char) (tokens : List String) (token : String)
    (hcs : ¬ ch10 ∈ cs) (htok : ¬ ch10 ∈ token.data) :
    (lexLine cs tokens token).count "\n" = tokens.count "\n" := by
  induction cs generalizing tokens token with
  | nil =>
    show (if token = "" then tokens else tokens ++ [token]).count "\n" = tokens.count "\n"
    by_cases ht : token = ""
    · rw [if_pos ht]
    · rw [if_neg ht, List.count_append]
      have hne : token ≠ "\n" := by
        intro hEq
        subst hEq
        exact htok (by decide)
      simp [List.count_singleton, hne]
  | cons ch rest ih =>
    have hch : ch ≠ ch10 := fun hEq => hcs (hEq ▸ List.mem_cons_self ch rest)
    have hrest : ¬ ch10 ∈ rest := fun hmem => hcs (List.mem_cons_of_mem ch hmem)
    unfold lexLine
    split
    · rw [ih _ "" hrest (by decide)]
      by_cases ht : token = ""
      · rw [if_pos ht]
      · rw [if_neg ht, List.count_append]
        have hne : token ≠ "\n" := fun hEq => htok (hEq ▸ (by decide))
        simp [List.count_singleton, hne]
    · split
      · rw [ih _ "" hrest (by decide)]
        have hchtok : String.mk [ch] ≠ "\n" := by
          intro hEq
          have h2 : [ch] = ("\n" : String).data := congrArg String.data hEq
          rw [show ("\n" : String).data = [ch10] from rfl] at h2
          injection h2 with h3
          exact hch h3
        by_cases ht : token = ""
        · rw [if_pos ht, List.count_append]
          simp [List.count_singleton, hchtok]
        · rw [if_neg ht, List.count_append, List.count_append]
          have hne : token ≠ "\n" := fun hEq => htok (hEq ▸ (by decide))
          simp [List.count_singleton, hchtok, hne]
      · refine ih tokens (token.push ch) hrest ?_
        rw [String.push]
        intro hmem
        rcases List.mem_append.mp hmem with h1 | h1
        · exact htok h1
        · exact hch (List.mem_singleton.mp h1).symm

/-- Folding the lexer over newline-free lines emits exactly one newline
token per line. -/
theorem lexFold_count_newline (lines : List (List Char)) (acc : List String)
    (h : ∀ piece ∈ lines, ¬ ch10 ∈ piece) :
    ((lines.foldl (fun acc line => lexLine line acc "" ++ ["\n"]) acc).count "\n")
      = acc.count "\n" + lines.length := by
  induction lines generalizing acc with
  | nil => simp
  | cons line rest ih =>
    simp only [List.foldl_cons]
    rw [ih _ (fun p hp => h p (List.mem_cons_of_mem line hp))]
    rw [List.count_append, lexLine_count_newline line acc "" (h line (List.mem_cons_self line rest)) (by decide)]
    simp [List.count_singleton]
    omega

/-- Claim C9, counterexample: a mid-line comment delimiter with no
separator around it is not emitted as its own token — the lexer has no
comment-delimiter rule and the two dashes stay glued inside the
surrounding run — while a whitespace-delimited one comes out as a
separate token. -/
theorem c9_comment_token_counterexample :
    (Lex "a--b").tokens = ["a--b", "\n"]
    ∧ "--" ∉ (Lex "a--b").tokens
    ∧ (Lex "a -- b").tokens = ["a", "--", "b", "\n"] := by
  refine ⟨by decide, by decide, by decide⟩

/-- Claim C9 as amended: each of the four punctuation characters is
emitted as its own single-character token after flushing the
in-progress token, and every line contributes exactly one explicit
newline token; but the two-dash sequence is not a recognized delimiter:
inside a run of ordinary characters it stays embedded in that run's
single token (so it stands alone only when separated by whitespace or
punctuation). -/
theorem c9_lexer_amended (s : String) :
    ((Lex s).tokens.count "\n" = (splitLines s.data).length)
    ∧ (∀ (ch : Char) (rest : List Char) (tokens : List String) (token : String),
        ch = ',' ∨ ch = '(' ∨ ch = ')' ∨ ch = ';' →
        lexLine (ch :: rest) tokens token
          = lexLine rest ((if token = "" then tokens else tokens ++ [token]) ++ [String.mk [ch]]) "")
    ∧ (∀ (cs : List Char) (tokens : List String) (token : String),
        (∀ c ∈ cs, isSepChar c = false) →
        lexLine cs tokens token =
          if (token.data ++ cs).isEmpty then tokens
          else tokens ++ [String.mk (token.data ++ cs)]) := by
  refine ⟨?_, ?_, ?_⟩
  · show ((splitLines s.data).foldl (fun acc line => lexLine line acc "" ++ ["\n"]) []).count "\n" = _
    rw [lexFold_count_newline (splitLines s.data) [] (splitLines_no_newline s.data)]
    simp
  · intro ch rest tokens token hch
    conv_lhs => unfold lexLine
    rw [if_neg (by rcases hch with rfl | rfl | rfl | rfl <;> decide), if_pos (by tauto)]
  · intro cs tokens token h
    exact lexLine_no_sep cs tokens token h

/-- Witness for the amended C9: the glued run, concretely. -/
theorem c9_lexer_amended_witness :
    (∀ c ∈ ['a', '-', '-', 'b'], isSepChar c = false)
    ∧ lexLine ['a', '-', '-', 'b'] [] "" = [String.mk ['a', '-', '-', 'b']] := by
  constructor
  · decide
  · have h := (c9_lexer_amended "").2.2 ['a', '-', '-', 'b'] [] "" (by decide)
    simpa using h

/-- SetPrimaryKeys only rewrites the column list: the strict flag is
untouched. -/
theorem setPrimaryKeys_strict (t : Table) (names : List String) :
    ((t.SetPrimaryKeys names).1).Strict = t.Strict := by
  unfold Table.SetPrimaryKeys
  dsimp only
  repeat' split
  all_goals rfl

/-- parseTableConstraint never changes the table's strict flag. -/
theorem parseTableConstraint_strict (fuel : Nat) (tk : Tokens) (t : Table)
    (tk' : Tokens) (t' : Table) (e : Option String)
    (h : parseTableConstraint fuel tk t = .ok (tk', t', e)) :
    t'.Strict = t.Strict := by
  unfold parseTableConstraint at h
  dsimp only at h
  split at h
  · simp only [Except.ok.injEq, Prod.mk.injEq] at h
    obtain ⟨-, h2, -⟩ := h
    subst h2
    rfl
  · split at h
    · split at h
      · exact Except.noConfusion h
      · simp only [Except.ok.injEq, Prod.mk.injEq] at h
        obtain ⟨-, h2, -⟩ := h
        subst h2
        exact setPrimaryKeys_strict _ _
    · split at h
      · split at h
        · exact Except.noConfusion h
        · simp only [Except.ok.injEq, Prod.mk.injEq] at h
          obtain ⟨-, h2, -⟩ := h
          subst h2
          rfl
      · split at h
        · split at h
          · exact Except.noConfusion h
          · simp only [Except.ok.injEq, Prod.mk.injEq] at h
            obtain ⟨-, h2, -⟩ := h
            subst h2
            rfl
        · split at h
          · split at h
            · exact Except.noConfusion h
            · simp only [Except.ok.injEq, Prod.mk.injEq] at h
              obtain ⟨-, h2, -⟩ := h
              subst h2
              rfl
            · simp only [Except.ok.injEq, Prod.mk.injEq] at h
              obtain ⟨-, h2, -⟩ := h
              subst h2
              rfl
          · simp only [Except.ok.injEq, Prod.mk.injEq] at h
            obtain ⟨-, h2, -⟩ := h
            subst h2
            rfl

/-- The table-body loop never changes the table's strict flag. -/
theorem parseCreateTableLoop_strict (fuel : Nat) (tk : Tokens) (t : Table)
    (tk' : Tokens) (t' : Table)
    (h : parseCreateTableLoop fuel tk t = .ok (tk', .ok t')) :
    t'.Strict = t.Strict := by
  induction fuel generalizing tk t with
  | zero => exact absurd h (by simp [parseCreateTableLoop])
  | succ fuel ih =>
    unfold parseCreateTableLoop at h
    dsimp only at h
    split at h
    · simp only [Except.ok.injEq, Prod.mk.injEq] at h
      obtain ⟨-, h2⟩ := h
      subst h2
      rfl
    · split at h
      · simp at h
      · split at h
        · exact ih _ _ h
        · split at h
          · exact ih _ _ h
          · split at h
            · split at h
              · exact Except.noConfusion h
              · exact ih _ _ h
            · split at h
              · split at h
                · exact Except.noConfusion h
                · rename_i tk2 t2 e2 heq
                  exact (ih _ _ h).trans (parseTableConstraint_strict fuel tk t tk2 t2 e2 heq)
              · split at h
                · exact Except.noConfusion h
                · simp at h
                · have h3 := ih _ _ h
                  exact h3

/-- Every table parseCreateTable returns has its strict flag false: the
table is constructed with Strict false and nothing ever sets it. -/
theorem parseCreateTable_strict (fuel : Nat) (tk : Tokens) (tk' : Tokens) (t' : Table)
    (h : parseCreateTable fuel tk = .ok (tk', .ok t')) :
    t'.Strict = false := by
  unfold parseCreateTable at h
  dsimp only at h
  repeat' split at h
  all_goals first
    | exact Except.noConfusion h
    | exact parseCreateTableLoop_strict _ _ _ _ _ h
    | simp at h

/-- The statement loop only accumulates tables whose strict flag is
false. -/
theorem ParseLoop_strict (fuel : Nat) (tk : Tokens) (acc : List Table) (tables : List Table)
    (hacc : ∀ tb ∈ acc, tb.Strict = false)
    (h : ParseLoop fuel tk acc = .ok (.ok tables)) :
    ∀ tb ∈ tables, tb.Strict = false := by
  induction fuel generalizing tk acc with
  | zero => exact absurd h (by simp [ParseLoop])
  | succ fuel ih =>
    unfold ParseLoop at h
    split at h
    · exact ih _ _ hacc h
    · split at h
      · simp only [Except.ok.injEq] at h
        subst h
        exact hacc
      · split at h
        · split at h
          · exact Except.noConfusion h
          · simp at h
          · rename_i tk2 t2 heq
            refine ih _ _ ?_ h
            intro tb htb
            rcases List.mem_append.mp htb with h1 | h1
            · exact hacc tb h1
            · rcases List.mem_singleton.mp h1 with rfl
              exact parseCreateTable_strict _ _ _ _ heq
        · split at h
          · split at h
            · exact Except.noConfusion h
            · simp at h
            · exact ih _ _ hacc h
          · simp at h

/-- With strict mode off, datatype resolution never fails. -/
theorem parseColumnDataType_nonstrict_ok (tk : Tokens) (c : Column) :
    ∃ c', (parseColumnDataType tk c false).2 = .ok c' := by
  unfold parseColumnDataType
  dsimp only
  repeat' split
  all_goals first
    | exact ⟨_, rfl⟩
    | simp_all

/-- Claim C10: every table the top-level Parse returns has Strict
false, and datatype resolution under strict = false — the only mode
Parse ever uses, since parseCreateTable passes the constructed table's
own Strict field — never reaches an error branch. -/
theorem c10_strict_never_set (fuel : Nat) (sql : String) (tables : List Table)
    (h : Parse fuel sql = .ok (.ok tables)) :
    (∀ tb ∈ tables, tb.Strict = false)
    ∧ (∀ (tk : Tokens) (c : Column), ∃ c', (parseColumnDataType tk c false).2 = .ok c') :=
  ⟨ParseLoop_strict fuel (Lex sql) [] tables (by simp) h,
    fun tk c => parseColumnDataType_nonstrict_ok tk c⟩

/-- Witness for C10 at a concrete schema. -/
theorem c10_strict_never_set_witness :
    Parse 50 "CREATE TABLE users ( name TEXT PRIMARY KEY )" = .ok (.ok [usersTable])
    ∧ (∀ tb ∈ [usersTable], tb.Strict = false) :=
  ⟨by decide,
    (c10_strict_never_set 50 "CREATE TABLE users ( name TEXT PRIMARY KEY )" [usersTable] (by decide)).1⟩

end Squirrel
